import Mathlib

/-!
Shallow embedding of the HeritageBot frontend conversation store
(`frontend/src/App.jsx`, `frontend/src/components/ChatInput.jsx`,
`frontend/src/lib/api.js`).

The React component state is modelled as an explicit record `AppState`;
each event handler becomes a function from state to state.  The two calls
to `Date.now()` inside the synchronous body of `handleSendMessage` are
modelled as returning the same millisecond tick `now` (the code literally
uses `Date.now()` and `Date.now() + 1`); the `Date.now()` call that runs
after the `await`, when a new conversation is created, is a separate
parameter `rnow`, and the ISO timestamps are the opaque strings `ts`
(submission time) and `rts` (resolve time).  The browser `JSON.parse` and
`JSON.stringify` builtins are modelled by an executable JSON parser and a
field-order-faithful serializer below.
-/

/-- A chat message as built by `App.handleSendMessage`: `userMsg` has the
fields `id, text, isUser, timestamp`; `loadingMsg` additionally has
`modelId` and `isTyping`.  User messages are represented with
`modelId = none` and `isTyping = false` (absent fields). -/
structure Message where
  id : Nat
  text : String
  isUser : Bool
  modelId : Option String
  timestamp : String
  isTyping : Bool
deriving Repr, DecidableEq

/-- A stored conversation (`newConversation` literal in `App.jsx`). -/
structure Conversation where
  id : Nat
  title : String
  messages : List Message
  messageCount : Nat
  createdAt : String
deriving Repr, DecidableEq

/-- The `useState` cells of `App` that the conversation store touches. -/
structure AppState where
  messages : List Message
  isLoading : Bool
  error : Option String
  selectedModel : String
  conversations : List Conversation
  currentConversationId : Option Nat
deriving Repr, DecidableEq

/-! ## JSON model (the browser `JSON.parse` / `JSON.stringify` builtins)

The load effect in `App.jsx` calls `JSON.parse` on the stored blob with no
`try`/`catch`, so a parse error is modelled as an `Except.error` that the
load operation propagates.  The parser below implements the JSON grammar
(null, booleans, numbers, strings with escapes, arrays, objects) with a
fuel argument for termination; every syntax error is reported as the
string `"SyntaxError"`, modelling the exception `JSON.parse` throws. -/

/-- JSON values, with numbers kept as their source lexeme. -/
inductive Json where
  | null
  | bool (b : Bool)
  | num (lexeme : String)
  | str (s : String)
  | arr (elems : List Json)
  | obj (members : List (String × Json))
deriving Repr

/-- The whitespace characters of the JSON grammar. -/
def isJsonWs (c : Char) : Bool :=
  c = ' ' || c = '\t' || c = '\n' || c = '\r'

/-- Drop leading JSON whitespace. -/
def skipWs : List Char → List Char
  | [] => []
  | c :: cs => if isJsonWs c then skipWs cs else c :: cs

/-- Hex digit value, if any. -/
def hexVal (c : Char) : Option Nat :=
  if '0' ≤ c ∧ c ≤ '9' then some (c.toNat - 48)
  else if 'a' ≤ c ∧ c ≤ 'f' then some (c.toNat - 87)
  else if 'A' ≤ c ∧ c ≤ 'F' then some (c.toNat - 55)
  else none

/-- Body of a JSON string literal, after the opening quote. -/
def parseStringBody (fuel : Nat) (cs : List Char) (acc : List Char) :
    Except String (String × List Char) :=
  match fuel, cs with
  | 0, _ => .error "SyntaxError"
  | _, [] => .error "SyntaxError"
  | fuel + 1, c :: rest =>
    if c = '"' then .ok (String.mk acc.reverse, rest)
    else if c = '\\' then
      match rest with
      | [] => .error "SyntaxError"
      | e :: rest2 =>
        if e = '"' then parseStringBody fuel rest2 ('"' :: acc)
        else if e = '\\' then parseStringBody fuel rest2 ('\\' :: acc)
        else if e = '/' then parseStringBody fuel rest2 ('/' :: acc)
        else if e = 'n' then parseStringBody fuel rest2 ('\n' :: acc)
        else if e = 't' then parseStringBody fuel rest2 ('\t' :: acc)
        else if e = 'r' then parseStringBody fuel rest2 ('\r' :: acc)
        else if e = 'b' then parseStringBody fuel rest2 ('\x08' :: acc)
        else if e = 'f' then parseStringBody fuel rest2 ('\x0c' :: acc)
        else if e = 'u' then
          match rest2 with
          | h1 :: h2 :: h3 :: h4 :: rest3 =>
            match hexVal h1, hexVal h2, hexVal h3, hexVal h4 with
            | some a, some b, some c2, some d =>
                parseStringBody fuel rest3
                  (Char.ofNat (a * 4096 + b * 256 + c2 * 16 + d) :: acc)
            | _, _, _, _ => .error "SyntaxError"
          | _ => .error "SyntaxError"
        else .error "SyntaxError"
    else if c.toNat < 32 then .error "SyntaxError"
    else parseStringBody fuel rest (c :: acc)

/-- Split a leading run of decimal digits. -/
def takeDigits : List Char → List Char × List Char
  | [] => ([], [])
  | c :: cs =>
      if '0' ≤ c ∧ c ≤ '9' then
        let (ds, rest) := takeDigits cs
        (c :: ds, rest)
      else ([], c :: cs)

/-- Optional exponent part of a JSON number; `mantissa` is the lexeme so
far.  Requires at least one digit after `e`/`E` and an optional sign. -/
def parseExpPart (cs : List Char) (mantissa : List Char) :
    Except String (List Char × List Char) :=
  match cs with
  | [] => .ok (mantissa, [])
  | e :: rest =>
    if e = 'e' ∨ e = 'E' then
      let (sign, rest2) :=
        match rest with
        | s :: r2 => if s = '+' ∨ s = '-' then ([s], r2) else ([], rest)
        | [] => ([], rest)
      match takeDigits rest2 with
      | ([], _) => .error "SyntaxError"
      | (ds, rest3) => .ok (mantissa ++ e :: sign ++ ds, rest3)
    else .ok (mantissa, cs)

/-- Optional fraction then optional exponent of a JSON number. -/
def parseFracExp (cs : List Char) (intPart : List Char) :
    Except String (List Char × List Char) :=
  match cs with
  | '.' :: rest =>
    (match takeDigits rest with
     | ([], _) => .error "SyntaxError"
     | (ds, rest2) => parseExpPart rest2 (intPart ++ '.' :: ds))
  | _ => parseExpPart cs intPart

/-- A JSON number after an optional leading minus: integer part with no
leading zero, optional fraction, optional exponent.  Returns the lexeme. -/
def parseNumberTail (cs : List Char) : Except String (List Char × List Char) :=
  match cs with
  | [] => .error "SyntaxError"
  | c :: rest =>
    if c = '0' then
      parseFracExp rest [c]
    else if '1' ≤ c ∧ c ≤ '9' then
      let (ds, rest2) := takeDigits rest
      parseFracExp rest2 (c :: ds)
    else .error "SyntaxError"

/-- Check that `cs` starts with `pre` and return the remainder. -/
def expectChars : List Char → List Char → Option (List Char)
  | [], cs => some cs
  | _, [] => none
  | p :: ps, c :: cs => if c = p then expectChars ps cs else none

mutual

/-- Parse one JSON value (leading whitespace allowed). -/
def parseValue (fuel : Nat) (cs : List Char) :
    Except String (Json × List Char) :=
  match fuel with
  | 0 => .error "SyntaxError"
  | fuel + 1 =>
    match skipWs cs with
    | [] => .error "SyntaxError"
    | c :: rest =>
      if c = '"' then
        match parseStringBody fuel rest [] with
        | .ok (s, rest2) => .ok (.str s, rest2)
        | .error e => .error e
      else if c = '\x7b' then
        parseObjectBody fuel rest
      else if c = '[' then
        parseArrayBody fuel rest
      else if c = 't' then
        match expectChars ['r', 'u', 'e'] rest with
        | some rest2 => .ok (.bool true, rest2)
        | none => .error "SyntaxError"
      else if c = 'f' then
        match expectChars ['a', 'l', 's', 'e'] rest with
        | some rest2 => .ok (.bool false, rest2)
        | none => .error "SyntaxError"
      else if c = 'n' then
        match expectChars ['u', 'l', 'l'] rest with
        | some rest2 => .ok (.null, rest2)
        | none => .error "SyntaxError"
      else if c = '-' then
        match parseNumberTail rest with
        | .ok (lexeme, rest2) => .ok (.num (String.mk ('-' :: lexeme)), rest2)
        | .error e => .error e
      else if '0' ≤ c ∧ c ≤ '9' then
        match parseNumberTail (c :: rest) with
        | .ok (lexeme, rest2) => .ok (.num (String.mk lexeme), rest2)
        | .error e => .error e
      else .error "SyntaxError"

/-- Parse an array body, after the opening bracket. -/
def parseArrayBody (fuel : Nat) (cs : List Char) :
    Except String (Json × List Char) :=
  match fuel with
  | 0 => .error "SyntaxError"
  | fuel + 1 =>
    match skipWs cs with
    | ']' :: rest => .ok (.arr [], rest)
    | cs2 =>
      match parseArrayElems fuel cs2 [] with
      | .ok (elems, rest) => .ok (.arr elems, rest)
      | .error e => .error e

/-- Parse comma-separated array elements up to the closing bracket. -/
def parseArrayElems (fuel : Nat) (cs : List Char) (acc : List Json) :
    Except String (List Json × List Char) :=
  match fuel with
  | 0 => .error "SyntaxError"
  | fuel + 1 =>
    match parseValue fuel cs with
    | .error e => .error e
    | .ok (v, rest) =>
      match skipWs rest with
      | ',' :: rest2 => parseArrayElems fuel rest2 (v :: acc)
      | ']' :: rest2 => .ok ((v :: acc).reverse, rest2)
      | _ => .error "SyntaxError"

/-- Parse an object body, after the opening brace. -/
def parseObjectBody (fuel : Nat) (cs : List Char) :
    Except String (Json × List Char) :=
  match fuel with
  | 0 => .error "SyntaxError"
  | fuel + 1 =>
    match skipWs cs with
    | '\x7d' :: rest => .ok (.obj [], rest)
    | cs2 =>
      match parseObjectMembers fuel cs2 [] with
      | .ok (members, rest) => .ok (.obj members, rest)
      | .error e => .error e

/-- Parse comma-separated `key: value` members up to the closing brace. -/
def parseObjectMembers (fuel : Nat) (cs : List Char) (acc : List (String × Json)) :
    Except String (List (String × Json) × List Char) :=
  match fuel with
  | 0 => .error "SyntaxError"
  | fuel + 1 =>
    match skipWs cs with
    | '"' :: rest =>
      match parseStringBody fuel rest [] with
      | .error e => .error e
      | .ok (key, rest2) =>
        match skipWs rest2 with
        | ':' :: rest3 =>
          match parseValue fuel rest3 with
          | .error e => .error e
          | .ok (v, rest4) =>
            match skipWs rest4 with
            | ',' :: rest5 => parseObjectMembers fuel rest5 ((key, v) :: acc)
            | '\x7d' :: rest5 => .ok (((key, v) :: acc).reverse, rest5)
            | _ => .error "SyntaxError"
        | _ => .error "SyntaxError"
    | _ => .error "SyntaxError"

end

/-- Model of `JSON.parse`: parse one value, then require only trailing
whitespace.  `.error "SyntaxError"` models the thrown exception. -/
def jsonParse (s : String) : Except String Json :=
  match parseValue (4 * s.length + 8) s.data with
  | .error e => .error e
  | .ok (v, rest) =>
    match skipWs rest with
    | [] => .ok v
    | _ => .error "SyntaxError"

/-! ## Persistence Surface (`localStorage`, key `heritagebot_conversations`) -/

/-- The load effect run on mount: `localStorage.getItem` returns the
stored string or `null`; a falsy value (absent, or the empty string)
leaves the initial empty collection in place; otherwise `JSON.parse` runs
with no error handler, so its exception propagates. -/
def loadConversations (stored : Option String) : Except String Json :=
  match stored with
  | none => .ok (Json.arr [])
  | some s => if s = "" then .ok (Json.arr []) else jsonParse s

/-- Lowercase hex digit, as produced by `JSON.stringify` escapes. -/
def hexDigit (n : Nat) : String :=
  String.singleton (if n < 10 then Char.ofNat (48 + n) else Char.ofNat (87 + n))

/-- The `JSON.stringify` escaping for one character inside a string literal. -/
def jsonEscapeChar (c : Char) : String :=
  if c = '"' then "\\\""
  else if c = '\\' then "\\\\"
  else if c = '\x08' then "\\b"
  else if c = '\x0c' then "\\f"
  else if c = '\n' then "\\n"
  else if c = '\r' then "\\r"
  else if c = '\t' then "\\t"
  else if c.toNat < 32 then
    "\\u00" ++ hexDigit (c.toNat / 16) ++ hexDigit (c.toNat % 16)
  else String.singleton c

/-- A JSON string literal for `s`. -/
def jsonStringLit (s : String) : String :=
  "\"" ++ String.join (s.data.map jsonEscapeChar) ++ "\""

/-- JSON boolean literal. -/
def jsonBool (b : Bool) : String := if b then "true" else "false"

/-- The `JSON.stringify` image of one message, with the fields in the insertion
order of the object literals in `handleSendMessage`: a user message has
`id, text, isUser, timestamp`; an assistant message (the only kind
carrying `modelId`) has `id, text, isUser, modelId, timestamp, isTyping`. -/
def serializeMessage (m : Message) : String :=
  match m.modelId with
  | none =>
      "\x7b\"id\":" ++ toString m.id ++
      ",\"text\":" ++ jsonStringLit m.text ++
      ",\"isUser\":" ++ jsonBool m.isUser ++
      ",\"timestamp\":" ++ jsonStringLit m.timestamp ++ "\x7d"
  | some mid =>
      "\x7b\"id\":" ++ toString m.id ++
      ",\"text\":" ++ jsonStringLit m.text ++
      ",\"isUser\":" ++ jsonBool m.isUser ++
      ",\"modelId\":" ++ jsonStringLit mid ++
      ",\"timestamp\":" ++ jsonStringLit m.timestamp ++
      ",\"isTyping\":" ++ jsonBool m.isTyping ++ "\x7d"

/-- The `JSON.stringify` image of one conversation, fields in insertion order. -/
def serializeConversation (c : Conversation) : String :=
  "\x7b\"id\":" ++ toString c.id ++
  ",\"title\":" ++ jsonStringLit c.title ++
  ",\"messages\":[" ++ String.intercalate "," (c.messages.map serializeMessage) ++
  "],\"messageCount\":" ++ toString c.messageCount ++
  ",\"createdAt\":" ++ jsonStringLit c.createdAt ++ "\x7d"

/-- The `JSON.stringify` image of the whole collection. -/
def serializeConversations (cs : List Conversation) : String :=
  "[" ++ String.intercalate "," (cs.map serializeConversation) ++ "]"

/-- The save effect run whenever `conversations` changes:
`if (conversations.length > 0) localStorage.setItem(...)` — an empty
collection performs no write and leaves the previous blob in place. -/
def saveConversationsEffect (conversations : List Conversation)
    (stored : Option String) : Option String :=
  if conversations.length > 0 then some (serializeConversations conversations)
  else stored

/-! ## Remote Answer Service (`frontend/src/lib/api.js`) -/

/-- The possible outcomes of the `fetch` in `sendMessage`. -/
inductive FetchOutcome where
  /-- A 2xx response with JSON body `\x7banswer, model_used\x7d`. -/
  | ok (answer : String) (modelUsed : String)
  /-- A non-2xx response with optional body field `detail`. -/
  | httpError (status : Nat) (detail : Option String)
  /-- The `fetch` call itself rejected (network error) with this message. -/
  | networkError (msg : String)
deriving Repr, DecidableEq

/-- The value `sendMessage` resolves with on success. -/
structure ChatResponse where
  answer : String
  modelUsed : String
deriving Repr, DecidableEq

/-- The generic message built by `sendMessage` for a non-2xx status
(the template string interpolating `response.status`). -/
def httpStatusMsg (status : Nat) : String :=
  "HTTP error! status: " ++ toString status

/-- The message thrown for a non-2xx response:
`errorData?.detail || httpStatusMsg` (`||` falls through on a falsy,
i.e. empty, string). -/
def httpErrMsg (status : Nat) (detail : Option String) : String :=
  match detail with
  | some d => if d = "" then httpStatusMsg status else d
  | none => httpStatusMsg status

/-- Model of `sendMessage` in `api.js`: on a non-2xx response it throws
`new Error(errorData?.detail || httpStatusMsg)`.  The JavaScript `||`
falls through on an empty string, so a present-but-empty `detail`
produces the generic message. -/
def sendMessage (outcome : FetchOutcome) : Except String ChatResponse :=
  match outcome with
  | .ok answer modelUsed => .ok ⟨answer, modelUsed⟩
  | .httpError status detail => .error (httpErrMsg status detail)
  | .networkError msg => .error msg

/-! ## Conversation store operations (`App.jsx`) -/

/-- The `userMsg` literal in `handleSendMessage`. -/
def mkUserMsg (now : Nat) (ts : String) (userMessage : String) : Message :=
  { id := now, text := userMessage, isUser := true, modelId := none,
    timestamp := ts, isTyping := false }

/-- The `loadingMsg` literal in `handleSendMessage` (pending assistant
message: empty text, `isTyping = true`, tagged with the selected model). -/
def mkLoadingMsg (now : Nat) (ts : String) (selectedModel : String) : Message :=
  { id := now + 1, text := "", isUser := false, modelId := some selectedModel,
    timestamp := ts, isTyping := true }

/-- The arrow function passed to `setMessages` on success: replace the
message whose id is the pending message's id with the resolved text. -/
def resolvePending (pendingId : Nat) (answer : String) (m : Message) : Message :=
  if m.id = pendingId then { m with text := answer, isTyping := false } else m

/-- The spread `\x7b ...loadingMsg, text: response.answer, isTyping: false \x7d`. -/
def resolveAssistant (loadingMsg : Message) (answer : String) : Message :=
  { loadingMsg with text := answer, isTyping := false }

/-- The arrow function passed to `setConversations` when a conversation is
current: append the completed exchange to the conversation with that id. -/
def appendExchange (cid : Nat) (userMessage : String) (userMsg assistantMsg : Message)
    (conv : Conversation) : Conversation :=
  if conv.id = cid then
    { conv with
      messages := conv.messages ++ [userMsg, assistantMsg],
      title := if conv.title = "" then userMessage.take 50 else conv.title,
      messageCount := conv.messageCount + 2 }
  else conv

/-- The synchronous prefix of `handleSendMessage`: clear the error, append
the user message, set the in-flight flag, append the pending message. -/
def sendStart (now : Nat) (ts : String) (userMessage : String) (s : AppState) : AppState :=
  { s with
    error := none,
    messages := s.messages ++ [mkUserMsg now ts userMessage,
                               mkLoadingMsg now ts s.selectedModel],
    isLoading := true }

/-- The continuation of `handleSendMessage` after `await sendMessage`:
the success branch resolves the pending message in place and either
appends the exchange to the current conversation or creates a new one;
the catch branch sets the error (`err.message || fallback`) and removes
the pending message; the finally branch clears the in-flight flag. -/
def sendFinish (now rnow : Nat) (ts rts : String) (userMessage : String)
    (outcome : FetchOutcome) (s : AppState) : AppState :=
  let loadingMsg := mkLoadingMsg now ts s.selectedModel
  let s1 :=
    match sendMessage outcome with
    | .ok resp =>
        let s2 := { s with
          messages := s.messages.map (resolvePending loadingMsg.id resp.answer) }
        match s2.currentConversationId with
        | some cid =>
            { s2 with conversations :=
                s2.conversations.map (appendExchange cid userMessage
                  (mkUserMsg now ts userMessage)
                  (resolveAssistant loadingMsg resp.answer)) }
        | none =>
            let newConversation : Conversation :=
              { id := rnow, title := userMessage.take 50,
                messages := [mkUserMsg now ts userMessage,
                             resolveAssistant loadingMsg resp.answer],
                messageCount := 2, createdAt := rts }
            { s2 with
              conversations := newConversation :: s2.conversations,
              currentConversationId := some newConversation.id }
    | .error msg =>
        { s with
          error := some (if msg = "" then
            "Failed to get response. Please try again." else msg),
          messages := s.messages.filter (fun m => m.id != loadingMsg.id) }
  { s1 with isLoading := false }

/-- Model of `handleSendMessage`, run to completion for a given fetch outcome. -/
def handleSendMessage (now rnow : Nat) (ts rts : String) (userMessage : String)
    (outcome : FetchOutcome) (s : AppState) : AppState :=
  sendFinish now rnow ts rts userMessage outcome (sendStart now ts userMessage s)

/-- The whitespace class of `String.prototype.trim` (the ASCII part:
space, tab, line feed, carriage return, vertical tab, form feed). -/
def isJsWs (c : Char) : Bool :=
  c = ' ' || c = '\t' || c = '\n' || c = '\r' || c = '\x0b' || c = '\x0c'

/-- Drop leading JavaScript whitespace. -/
def dropWs : List Char → List Char
  | [] => []
  | c :: cs => if isJsWs c then dropWs cs else c :: cs

/-- Model of the `input.trim()` builtin: strip whitespace on both ends. -/
def jsTrim (s : String) : String :=
  String.mk ((dropWs (dropWs s.data).reverse).reverse)

/-- Model of `ChatInput.handleSubmit`: `if (input.trim() && !isLoading)` call
`onSendMessage(input.trim())`; a whitespace-only input or an in-flight
request makes the submission a no-op. -/
def submitUserMessage (now rnow : Nat) (ts rts : String) (input : String)
    (outcome : FetchOutcome) (s : AppState) : AppState :=
  if jsTrim input ≠ "" ∧ s.isLoading = false then
    handleSendMessage now rnow ts rts (jsTrim input) outcome s
  else s

/-- Model of `handleNewChat`: clear the active list, current id and error. -/
def handleNewChat (s : AppState) : AppState :=
  { s with messages := [], currentConversationId := none, error := none }

/-- Model of `handleSelectConversation`: look the id up with `find`; when found,
show its messages and make it current; otherwise do nothing. -/
def handleSelectConversation (conversationId : Nat) (s : AppState) : AppState :=
  match s.conversations.find? (fun c => c.id == conversationId) with
  | some conversation =>
      { s with
        messages := conversation.messages,
        currentConversationId := some conversationId,
        error := none }
  | none => s

/-- Model of `handleDeleteConversation`: filter the conversation out of the
collection; if it was current, behave as `handleNewChat`. -/
def handleDeleteConversation (conversationId : Nat) (s : AppState) : AppState :=
  let s1 := { s with
    conversations := s.conversations.filter (fun c => c.id != conversationId) }
  if s1.currentConversationId = some conversationId then handleNewChat s1 else s1

/-! ## Helper lemmas -/

/-- A list of messages none of which has the pending id is unchanged by
the success-branch replacement. -/
theorem map_resolvePending_of_ne (key : Nat) (ans : String) (l : List Message)
    (h : ∀ m ∈ l, m.id ≠ key) : l.map (resolvePending key ans) = l := by
  induction l with
  | nil => rfl
  | cons a t ih =>
    have ha : a.id ≠ key := h a (List.mem_cons_self a t)
    simp only [List.map_cons, resolvePending, if_neg ha]
    rw [ih fun m hm => h m (List.mem_cons_of_mem a hm)]

/-- A list of conversations none of which has the current id is unchanged
by the exchange-appending map. -/
theorem map_appendExchange_of_ne (cid : Nat) (um : String) (u a : Message)
    (l : List Conversation) (h : ∀ c ∈ l, c.id ≠ cid) :
    l.map (appendExchange cid um u a) = l := by
  induction l with
  | nil => rfl
  | cons c t ih =>
    have hc : c.id ≠ cid := h c (List.mem_cons_self c t)
    simp only [List.map_cons, appendExchange, if_neg hc]
    rw [ih fun x hx => h x (List.mem_cons_of_mem c hx)]

/-- A list of messages none of which has the pending id survives the
failure-branch filter unchanged. -/
theorem filter_msg_ne_of_forall (key : Nat) (l : List Message)
    (h : ∀ m ∈ l, m.id ≠ key) : l.filter (fun m => m.id != key) = l :=
  List.filter_eq_self.mpr fun a ha => by simpa using h a ha

/-- A list of conversations none of which has the deleted id survives the
deletion filter unchanged. -/
theorem filter_conv_ne_of_forall (key : Nat) (l : List Conversation)
    (h : ∀ c ∈ l, c.id ≠ key) : l.filter (fun c => c.id != key) = l :=
  List.filter_eq_self.mpr fun a ha => by simpa using h a ha

/-- Lookup misses when no conversation has the id. -/
theorem find_conv_eq_none (key : Nat) (l : List Conversation)
    (h : ∀ c ∈ l, c.id ≠ key) : l.find? (fun c => c.id == key) = none :=
  List.find?_eq_none.mpr fun x hx => by simpa using h x hx

/-- Lookup finds the first conversation carrying the id. -/
theorem find_conv_first (key : Nat) (pre : List Conversation) (conv : Conversation)
    (post : List Conversation) (hpre : ∀ c ∈ pre, c.id ≠ key) (hid : conv.id = key) :
    (pre ++ conv :: post).find? (fun c => c.id == key) = some conv := by
  induction pre with
  | nil => simp [List.find?_cons, hid]
  | cons a t ih =>
    have ha : a.id ≠ key := hpre a (List.mem_cons_self a t)
    simpa [List.find?_cons, ha] using ih fun c hc => hpre c (List.mem_cons_of_mem a hc)

/-- The generic HTTP-status message is never the empty string. -/
theorem httpStatusMsg_ne_empty (status : Nat) : httpStatusMsg status ≠ "" := by
  intro h
  have hlen : (httpStatusMsg status).length = 0 := by rw [h]; rfl
  rw [httpStatusMsg, String.length_append] at hlen
  have h20 : ("HTTP error! status: " : String).length = 20 := by decide
  omega

/-- The active list after a successful submission, for any fresh pending
id: the user message and the resolved assistant message are appended. -/
theorem handleSend_success_messages (now rnow : Nat) (ts rts um ans mu : String)
    (s : AppState) (hfresh : ∀ m ∈ s.messages, m.id ≠ now + 1) :
    (handleSendMessage now rnow ts rts um (.ok ans mu) s).messages =
      s.messages ++ [mkUserMsg now ts um,
        resolveAssistant (mkLoadingMsg now ts s.selectedModel) ans] := by
  have hmap : (s.messages ++ [mkUserMsg now ts um,
        mkLoadingMsg now ts s.selectedModel]).map (resolvePending (now + 1) ans) =
      s.messages ++ [mkUserMsg now ts um,
        resolveAssistant (mkLoadingMsg now ts s.selectedModel) ans] := by
    rw [List.map_append, map_resolvePending_of_ne _ _ _ hfresh]
    have hu : now ≠ now + 1 := by omega
    simp [resolvePending, resolveAssistant, mkUserMsg, mkLoadingMsg, hu]
  cases hcur : s.currentConversationId with
  | none =>
      simp only [handleSendMessage, sendStart, sendFinish, sendMessage, mkLoadingMsg, hcur]
      simpa [mkLoadingMsg] using hmap
  | some cid =>
      simp only [handleSendMessage, sendStart, sendFinish, sendMessage, mkLoadingMsg, hcur]
      simpa [mkLoadingMsg] using hmap

/-- The whole state after a failed submission: the in-flight flag drops,
the error is set from the thrown message (with the generic fallback for
an empty message), the pending message is removed and the user message
stays; conversations and current id are untouched. -/
theorem handleSend_failure_state (now rnow : Nat) (ts rts um emsg : String)
    (outcome : FetchOutcome) (s : AppState)
    (hout : sendMessage outcome = .error emsg)
    (hfresh : ∀ m ∈ s.messages, m.id ≠ now + 1) :
    handleSendMessage now rnow ts rts um outcome s =
      { s with isLoading := false,
               error := some (if emsg = "" then
                 "Failed to get response. Please try again." else emsg),
               messages := s.messages ++ [mkUserMsg now ts um] } := by
  have hu : now ≠ now + 1 := by omega
  have hub : (now != now + 1) = true := by simp [hu]
  simp [handleSendMessage, sendStart, sendFinish, hout, List.filter_append,
    filter_msg_ne_of_forall _ _ hfresh, mkUserMsg, mkLoadingMsg, hub]

/-! ## Claims -/

/-- C1 (counterexample): the load operation does not treat malformed
stored data as an empty collection.  `JSON.parse` runs with no
`try`/`catch`, so on the stored byte string `"oops"` (not valid JSON) the
load throws a parse error instead of yielding a collection — refuting the
claim that the load never throws. -/
theorem C1_load_counterexample :
    loadConversations (some "oops") = .error "SyntaxError" := by rfl

/-- C1 (amended): on process start the stored data is read once; absent
stored data (or the falsy empty string) is treated as the empty
collection and well-formed stored JSON yields the deserialized value, but
malformed stored data makes the load throw the parse error rather than
fall back to the empty collection. -/
theorem C1_load_amended :
    loadConversations none = .ok (Json.arr [])
    ∧ loadConversations (some "") = .ok (Json.arr [])
    ∧ (∀ s v, s ≠ "" → jsonParse s = .ok v → loadConversations (some s) = .ok v)
    ∧ (∀ s e, s ≠ "" → jsonParse s = .error e → loadConversations (some s) = .error e) := by
  refine ⟨rfl, rfl, ?_, ?_⟩ <;> intro s x hne h <;> simp [loadConversations, hne, h]

/-- C1 (witness): the amended statement at the stored strings `"[]"`
(well-formed JSON) and `"nope"` (malformed). -/
theorem C1_load_amended_witness :
    loadConversations (some "[]") = .ok (Json.arr [])
    ∧ loadConversations (some "nope") = .error "SyntaxError" :=
  ⟨C1_load_amended.2.2.1 "[]" (Json.arr []) (by decide) (by rfl),
   C1_load_amended.2.2.2 "nope" "SyntaxError" (by decide) (by rfl)⟩

set_option maxRecDepth 10000 in
/-- C2 (counterexample): deleting the last remaining conversation does not
re-serialize the collection — the save effect writes only when the
collection is non-empty — so afterwards the persisted blob is the stale
serialization of the old collection, not the serialization of the current
(empty) in-memory collection. -/
theorem C2_persist_counterexample :
    saveConversationsEffect
        (handleDeleteConversation 1
          ⟨[], false, none, "gpt", [⟨1, "t", [], 2, "c"⟩], some 1⟩).conversations
        (some (serializeConversations [⟨1, "t", [], 2, "c"⟩]))
      ≠ some (serializeConversations
          (handleDeleteConversation 1
            ⟨[], false, none, "gpt", [⟨1, "t", [], 2, "c"⟩], some 1⟩).conversations) := by
  decide

/-- C2 (amended): a mutation that leaves the Conversation Collection
non-empty re-serializes it in full, so the persisted blob then equals the
serialization of the current collection — shown for deletion and for a
successful submission — but a mutation that empties the collection
(deleting the last remaining conversation) performs no write and leaves
the previous blob in place. -/
theorem C2_persist_amended (s : AppState) (stored : Option String) (cid : Nat)
    (now rnow : Nat) (ts rts msg ans mu : String) :
    (saveConversationsEffect (handleDeleteConversation cid s).conversations stored =
      if (handleDeleteConversation cid s).conversations = [] then stored
      else some (serializeConversations (handleDeleteConversation cid s).conversations))
    ∧ (s.conversations ≠ [] ∨ s.currentConversationId = none →
       saveConversationsEffect
           (handleSendMessage now rnow ts rts msg (.ok ans mu) s).conversations stored =
         some (serializeConversations
           (handleSendMessage now rnow ts rts msg (.ok ans mu) s).conversations)) := by
  constructor
  · cases hl : (handleDeleteConversation cid s).conversations with
    | nil => simp [saveConversationsEffect, hl]
    | cons a t => simp [saveConversationsEffect, hl]
  · intro h
    cases hcur : s.currentConversationId with
    | none =>
        simp [handleSendMessage, sendStart, sendFinish, sendMessage, hcur,
          saveConversationsEffect]
    | some cid2 =>
        have hne : s.conversations ≠ [] := by
          rcases h with h | h
          · exact h
          · rw [hcur] at h; exact absurd h (by simp)
        cases hcs : s.conversations with
        | nil => exact absurd hcs hne
        | cons c t =>
            simp [handleSendMessage, sendStart, sendFinish, sendMessage, hcur, hcs,
              saveConversationsEffect]

set_option maxRecDepth 10000 in
/-- C2 (amended, witness): the amended statement at a one-conversation
state — the deletion branch empties the collection and keeps the blob,
and the submission branch writes the serialization. -/
theorem C2_persist_amended_witness :
    (saveConversationsEffect
        (handleDeleteConversation 1
          ⟨[], false, none, "gpt", [⟨1, "u", [], 2, "c"⟩], some 1⟩).conversations
        (some "old")
      = if (handleDeleteConversation 1
            ⟨[], false, none, "gpt", [⟨1, "u", [], 2, "c"⟩], some 1⟩).conversations = []
        then some "old"
        else some (serializeConversations
          (handleDeleteConversation 1
            ⟨[], false, none, "gpt", [⟨1, "u", [], 2, "c"⟩], some 1⟩).conversations))
    ∧ saveConversationsEffect
        (handleSendMessage 1 9 "t1" "t2" "hi" (.ok "ans" "mu")
          ⟨[], false, none, "gpt", [], none⟩).conversations (some "old")
      = some (serializeConversations
          (handleSendMessage 1 9 "t1" "t2" "hi" (.ok "ans" "mu")
            ⟨[], false, none, "gpt", [], none⟩).conversations) :=
  ⟨(C2_persist_amended ⟨[], false, none, "gpt", [⟨1, "u", [], 2, "c"⟩], some 1⟩
      (some "old") 1 1 9 "t1" "t2" "hi" "ans" "mu").1,
   (C2_persist_amended ⟨[], false, none, "gpt", [], none⟩
      (some "old") 1 1 9 "t1" "t2" "hi" "ans" "mu").2 (Or.inr rfl)⟩

/-- C3: at most one submission is outstanding at a time — while a request
is in flight (`isLoading = true`) a further submission is rejected by the
input gate, not queued, and leaves the whole state (in particular the
active message list) unchanged until the first request resolves. -/
theorem C3_inflight_submission_rejected (now rnow : Nat) (ts rts input : String)
    (outcome : FetchOutcome) (s : AppState) (h : s.isLoading = true) :
    submitUserMessage now rnow ts rts input outcome s = s := by
  simp [submitUserMessage, h]

/-- C3 (witness): a concrete in-flight state rejects a further
submission unchanged. -/
theorem C3_inflight_submission_rejected_witness :
    submitUserMessage 1 9 "t1" "t2" "hello" (.ok "a" "m")
        ⟨[], true, none, "gpt", [], none⟩
      = ⟨[], true, none, "gpt", [], none⟩ :=
  C3_inflight_submission_rejected 1 9 "t1" "t2" "hello" (.ok "a" "m") _ rfl

/-- C7: a submission whose text is empty or whitespace-only is a no-op:
the gate rejects it for every possible fetch outcome (so before any
network call) and the whole state, in particular the active message list,
is unchanged. -/
theorem C7_blank_submission_noop (now rnow : Nat) (ts rts input : String)
    (outcome : FetchOutcome) (s : AppState) (h : jsTrim input = "") :
    submitUserMessage now rnow ts rts input outcome s = s := by
  simp [submitUserMessage, h]

/-- C7 (witness): a concrete whitespace-only submission is a no-op. -/
theorem C7_blank_submission_noop_witness :
    submitUserMessage 1 9 "t1" "t2" "  \t " (.ok "a" "m")
        ⟨[], false, none, "gpt", [], none⟩
      = ⟨[], false, none, "gpt", [], none⟩ :=
  C7_blank_submission_noop 1 9 "t1" "t2" "  \t " (.ok "a" "m") _ (by decide)

/-- C5: submitting text that is non-empty after trimming, while idle,
appends exactly one user message followed by one assistant message to the
active list; the assistant message starts pending (empty text, typing
flag set), and on success it is resolved in place with the service's
answer text and its pending flag cleared. -/
theorem C5_idle_submission_exchange (now rnow : Nat) (ts rts input ans mu : String)
    (s : AppState) (hidle : s.isLoading = false) (hne : jsTrim input ≠ "")
    (hfresh : ∀ m ∈ s.messages, m.id ≠ now + 1) :
    (sendStart now ts (jsTrim input) s).messages =
      s.messages ++ [mkUserMsg now ts (jsTrim input), mkLoadingMsg now ts s.selectedModel]
    ∧ (mkUserMsg now ts (jsTrim input)).isUser = true
    ∧ (mkLoadingMsg now ts s.selectedModel).isUser = false
    ∧ (mkLoadingMsg now ts s.selectedModel).text = ""
    ∧ (mkLoadingMsg now ts s.selectedModel).isTyping = true
    ∧ (submitUserMessage now rnow ts rts input (.ok ans mu) s).messages =
        s.messages ++ [mkUserMsg now ts (jsTrim input),
          resolveAssistant (mkLoadingMsg now ts s.selectedModel) ans]
    ∧ (resolveAssistant (mkLoadingMsg now ts s.selectedModel) ans).text = ans
    ∧ (resolveAssistant (mkLoadingMsg now ts s.selectedModel) ans).isTyping = false := by
  refine ⟨rfl, rfl, rfl, rfl, rfl, ?_, rfl, rfl⟩
  rw [submitUserMessage, if_pos ⟨hne, hidle⟩]
  exact handleSend_success_messages now rnow ts rts (jsTrim input) ans mu s hfresh

/-- C5 (witness): the statement at a concrete idle state and input. -/
theorem C5_idle_submission_exchange_witness :
    (submitUserMessage 1 9 "t1" "t2" " hi " (.ok "ans" "mu")
        ⟨[], false, none, "gpt", [], none⟩).messages =
      [mkUserMsg 1 "t1" "hi", resolveAssistant (mkLoadingMsg 1 "t1" "gpt") "ans"] := by
  have h := (C5_idle_submission_exchange 1 9 "t1" "t2" " hi " "ans" "mu"
    ⟨[], false, none, "gpt", [], none⟩ rfl (by decide) (by simp)).2.2.2.2.2.1
  simpa using h

set_option maxRecDepth 10000 in
/-- C6 (counterexample): with a failure response whose body carries
`detail` present but equal to the empty string, the surfaced error is the
generic HTTP-status message, not the `detail` field — the JavaScript `||`
in `sendMessage` treats an empty string as absent. -/
theorem C6_empty_detail_counterexample :
    (submitUserMessage 1 9 "t1" "t2" "hi" (.httpError 500 (some ""))
        ⟨[], false, none, "gpt", [], none⟩).error = some "HTTP error! status: 500"
    ∧ "HTTP error! status: 500" ≠ "" :=
  ⟨by decide, by decide⟩

/-- C6 (amended): on every failed submission the pending assistant
message is removed from the active list while the preceding user message
remains, conversations are untouched, and the surfaced error text is the
response body's `detail` field when it is present and non-empty,
otherwise the generic HTTP-status-derived message; a network error
surfaces the error's own message. -/
theorem C6_failure_removes_pending (now rnow : Nat) (ts rts input : String)
    (s : AppState) (hidle : s.isLoading = false) (hne : jsTrim input ≠ "")
    (hfresh : ∀ m ∈ s.messages, m.id ≠ now + 1) :
    (∀ status detail,
        (submitUserMessage now rnow ts rts input (.httpError status detail) s).messages =
          s.messages ++ [mkUserMsg now ts (jsTrim input)]
        ∧ (submitUserMessage now rnow ts rts input (.httpError status detail) s).error =
            some (httpErrMsg status detail)
        ∧ (submitUserMessage now rnow ts rts input (.httpError status detail) s).conversations =
            s.conversations)
    ∧ (∀ msg, msg ≠ "" →
        (submitUserMessage now rnow ts rts input (.networkError msg) s).messages =
          s.messages ++ [mkUserMsg now ts (jsTrim input)]
        ∧ (submitUserMessage now rnow ts rts input (.networkError msg) s).error = some msg) := by
  constructor
  · intro status detail
    have hnem : httpErrMsg status detail ≠ "" := by
      cases detail with
      | none => exact httpStatusMsg_ne_empty status
      | some d =>
          by_cases hd : d = ""
          · simp only [httpErrMsg, if_pos hd]; exact httpStatusMsg_ne_empty status
          · simp only [httpErrMsg, if_neg hd]; exact hd
    have hout : sendMessage (.httpError status detail) =
        .error (httpErrMsg status detail) := rfl
    rw [submitUserMessage, if_pos ⟨hne, hidle⟩,
      handleSend_failure_state now rnow ts rts (jsTrim input) _ _ s hout hfresh]
    exact ⟨rfl, by rw [if_neg hnem], rfl⟩
  · intro msg hmsg
    have hout : sendMessage (.networkError msg) = .error msg := rfl
    rw [submitUserMessage, if_pos ⟨hne, hidle⟩,
      handleSend_failure_state now rnow ts rts (jsTrim input) _ _ s hout hfresh]
    exact ⟨rfl, by rw [if_neg hmsg]⟩

/-- C6 (amended, witness): the statement at a concrete idle state, for a
404 with a non-empty `detail` body. -/
theorem C6_failure_removes_pending_witness :
    (submitUserMessage 1 9 "t1" "t2" "hi" (.httpError 404 (some "no index"))
        ⟨[], false, none, "gpt", [], none⟩).messages = [mkUserMsg 1 "t1" "hi"]
    ∧ (submitUserMessage 1 9 "t1" "t2" "hi" (.httpError 404 (some "no index"))
        ⟨[], false, none, "gpt", [], none⟩).error = some "no index" := by
  have h := (C6_failure_removes_pending 1 9 "t1" "t2" "hi"
    ⟨[], false, none, "gpt", [], none⟩ rfl (by decide) (by simp)).1 404 (some "no index")
  exact ⟨by simpa using h.1, by simpa using h.2.1⟩

/-- C4: when a submission succeeds while a conversation is current, the
completed exchange (user message and resolved assistant message) is
appended to exactly that conversation and its message count rises by
exactly 2, every other conversation being untouched; when no conversation
is current, a new conversation seeded with exactly those two messages,
titled with the user message truncated to 50 characters, is prepended
(newest-first) to the collection and made current. -/
theorem C4_success_records_exchange (now rnow : Nat) (ts rts userMessage ans mu : String)
    (s : AppState) :
    (∀ cid conv pre post,
        s.currentConversationId = some cid →
        s.conversations = pre ++ conv :: post →
        conv.id = cid →
        (∀ c ∈ pre, c.id ≠ cid) →
        (∀ c ∈ post, c.id ≠ cid) →
        (handleSendMessage now rnow ts rts userMessage (.ok ans mu) s).conversations =
          pre ++ { conv with
              messages := conv.messages ++
                [mkUserMsg now ts userMessage,
                 resolveAssistant (mkLoadingMsg now ts s.selectedModel) ans],
              title := if conv.title = "" then userMessage.take 50 else conv.title,
              messageCount := conv.messageCount + 2 } :: post)
    ∧ (s.currentConversationId = none →
        (handleSendMessage now rnow ts rts userMessage (.ok ans mu) s).conversations =
          { id := rnow, title := userMessage.take 50,
            messages := [mkUserMsg now ts userMessage,
                         resolveAssistant (mkLoadingMsg now ts s.selectedModel) ans],
            messageCount := 2, createdAt := rts } :: s.conversations
        ∧ (handleSendMessage now rnow ts rts userMessage (.ok ans mu) s).currentConversationId
            = some rnow) := by
  constructor
  · intro cid conv pre post hcur hconvs hid hpre hpost
    simp only [handleSendMessage, sendStart, sendFinish, sendMessage, hcur, hconvs,
      List.map_append, List.map_cons,
      map_appendExchange_of_ne _ _ _ _ pre hpre,
      map_appendExchange_of_ne _ _ _ _ post hpost]
    simp [appendExchange, hid]
  · intro hcur
    constructor <;> simp [handleSendMessage, sendStart, sendFinish, sendMessage, hcur]

set_option maxRecDepth 40000 in
/-- C4 (witness): the statement at concrete states — one with a current
conversation (its count rises 2 → 4), one without (a new conversation
titled by the message is prepended and made current). -/
theorem C4_success_records_exchange_witness :
    (handleSendMessage 1 9 "t1" "t2" "hi" (.ok "ans" "mu")
        ⟨[], false, none, "gpt", [⟨5, "", [], 2, "c"⟩], some 5⟩).conversations =
      [⟨5, "hi", [mkUserMsg 1 "t1" "hi",
        resolveAssistant (mkLoadingMsg 1 "t1" "gpt") "ans"], 4, "c"⟩]
    ∧ (handleSendMessage 1 9 "t1" "t2" "hi" (.ok "ans" "mu")
        ⟨[], false, none, "gpt", [], none⟩).conversations =
      [⟨9, "hi", [mkUserMsg 1 "t1" "hi",
        resolveAssistant (mkLoadingMsg 1 "t1" "gpt") "ans"], 2, "t2"⟩]
    ∧ (handleSendMessage 1 9 "t1" "t2" "hi" (.ok "ans" "mu")
        ⟨[], false, none, "gpt", [], none⟩).currentConversationId = some 9 := by
  refine ⟨?_, ?_, ?_⟩
  · exact (C4_success_records_exchange 1 9 "t1" "t2" "hi" "ans" "mu" _).1 5
      ⟨5, "", [], 2, "c"⟩ [] [] rfl rfl rfl (by simp) (by simp)
  · exact ((C4_success_records_exchange 1 9 "t1" "t2" "hi" "ans" "mu" _).2 rfl).1
  · exact ((C4_success_records_exchange 1 9 "t1" "t2" "hi" "ans" "mu" _).2 rfl).2

/-- C8: deleting a conversation removes exactly the conversation carrying
the given identifier from the collection and leaves every other
conversation unchanged; if it was current, the active message list, the
current-conversation reference and the error are additionally cleared (as
by `handleNewChat`), and otherwise they are untouched. -/
theorem C8_delete_conversation (conversationId : Nat) (s : AppState) :
    (∀ pre conv post,
        s.conversations = pre ++ conv :: post →
        conv.id = conversationId →
        (∀ c ∈ pre, c.id ≠ conversationId) →
        (∀ c ∈ post, c.id ≠ conversationId) →
        (handleDeleteConversation conversationId s).conversations = pre ++ post)
    ∧ (s.currentConversationId = some conversationId →
        (handleDeleteConversation conversationId s).messages = []
        ∧ (handleDeleteConversation conversationId s).currentConversationId = none
        ∧ (handleDeleteConversation conversationId s).error = none)
    ∧ (s.currentConversationId ≠ some conversationId →
        (handleDeleteConversation conversationId s).messages = s.messages
        ∧ (handleDeleteConversation conversationId s).currentConversationId
            = s.currentConversationId
        ∧ (handleDeleteConversation conversationId s).error = s.error) := by
  refine ⟨?_, ?_, ?_⟩
  · intro pre conv post hconvs hid hpre hpost
    have hfil : s.conversations.filter (fun c => c.id != conversationId) = pre ++ post := by
      rw [hconvs, List.filter_append, filter_conv_ne_of_forall _ _ hpre, List.filter_cons]
      simp [hid, filter_conv_ne_of_forall _ _ hpost]
    by_cases hc : s.currentConversationId = some conversationId <;>
      simp [handleDeleteConversation, handleNewChat, hc, hfil]
  · intro hc
    simp [handleDeleteConversation, handleNewChat, hc]
  · intro hc
    simp [handleDeleteConversation, handleNewChat, hc]

/-- C8 (witness): deleting the current conversation from a two-element
collection removes exactly it and clears the active list and current id. -/
theorem C8_delete_conversation_witness :
    (handleDeleteConversation 5
        ⟨[mkUserMsg 1 "t1" "hi"], false, some "e", "gpt",
          [⟨4, "a", [], 2, "c4"⟩, ⟨5, "b", [], 2, "c5"⟩], some 5⟩).conversations =
      [⟨4, "a", [], 2, "c4"⟩]
    ∧ (handleDeleteConversation 5
        ⟨[mkUserMsg 1 "t1" "hi"], false, some "e", "gpt",
          [⟨4, "a", [], 2, "c4"⟩, ⟨5, "b", [], 2, "c5"⟩], some 5⟩).messages = []
    ∧ (handleDeleteConversation 5
        ⟨[mkUserMsg 1 "t1" "hi"], false, some "e", "gpt",
          [⟨4, "a", [], 2, "c4"⟩, ⟨5, "b", [], 2, "c5"⟩], some 5⟩).currentConversationId
        = none := by
  refine ⟨?_, ?_, ?_⟩
  · exact (C8_delete_conversation 5 _).1 [⟨4, "a", [], 2, "c4"⟩] ⟨5, "b", [], 2, "c5"⟩ []
      rfl rfl (by decide) (by simp)
  · exact ((C8_delete_conversation 5 _).2.1 rfl).1
  · exact ((C8_delete_conversation 5 _).2.1 rfl).2.1

/-- C9: selecting an identifier not present in the collection is a no-op
(the whole state is unchanged, no crash); selecting a present identifier
replaces the active message list with that conversation's messages, sets
it current, clears the error and leaves the collection itself unchanged. -/
theorem C9_select_conversation (conversationId : Nat) (s : AppState) :
    ((∀ c ∈ s.conversations, c.id ≠ conversationId) →
        handleSelectConversation conversationId s = s)
    ∧ (∀ pre conv post,
        s.conversations = pre ++ conv :: post →
        conv.id = conversationId →
        (∀ c ∈ pre, c.id ≠ conversationId) →
        (handleSelectConversation conversationId s).messages = conv.messages
        ∧ (handleSelectConversation conversationId s).currentConversationId
            = some conversationId
        ∧ (handleSelectConversation conversationId s).conversations = s.conversations
        ∧ (handleSelectConversation conversationId s).error = none) := by
  constructor
  · intro h
    simp [handleSelectConversation, find_conv_eq_none _ _ h]
  · intro pre conv post hconvs hid hpre
    have hfind : s.conversations.find? (fun c => c.id == conversationId) = some conv := by
      rw [hconvs]; exact find_conv_first _ _ _ _ hpre hid
    simp [handleSelectConversation, hfind]

/-- C9 (witness): selecting a stale id (99) is a no-op on a concrete
state; selecting a present id (4) loads its messages and sets it
current. -/
theorem C9_select_conversation_witness :
    handleSelectConversation 99
        ⟨[], false, none, "gpt", [⟨4, "a", [mkUserMsg 1 "t1" "x"], 2, "c4"⟩], none⟩ =
      ⟨[], false, none, "gpt", [⟨4, "a", [mkUserMsg 1 "t1" "x"], 2, "c4"⟩], none⟩
    ∧ (handleSelectConversation 4
        ⟨[], false, none, "gpt", [⟨4, "a", [mkUserMsg 1 "t1" "x"], 2, "c4"⟩], none⟩).messages =
      [mkUserMsg 1 "t1" "x"]
    ∧ (handleSelectConversation 4
        ⟨[], false, none, "gpt",
          [⟨4, "a", [mkUserMsg 1 "t1" "x"], 2, "c4"⟩], none⟩).currentConversationId
        = some 4 := by
  refine ⟨?_, ?_, ?_⟩
  · exact (C9_select_conversation 99 _).1 (by decide)
  · exact ((C9_select_conversation 4 _).2 [] ⟨4, "a", [mkUserMsg 1 "t1" "x"], 2, "c4"⟩ []
      rfl rfl (by simp)).1
  · exact ((C9_select_conversation 4 _).2 [] ⟨4, "a", [mkUserMsg 1 "t1" "x"], 2, "c4"⟩ []
      rfl rfl (by simp)).2.1

/-- C10: the `model_used` field of a successful response is never stored —
the submission's resulting state does not depend on it at all — and the
assistant message recorded in the active list is the resolved pending
message, whose model identifier is the one selected at submission time. -/
theorem C10_model_used_never_stored (now rnow : Nat)
    (ts rts userMessage ans mu1 mu2 : String) (s : AppState) :
    handleSendMessage now rnow ts rts userMessage (.ok ans mu1) s =
      handleSendMessage now rnow ts rts userMessage (.ok ans mu2) s
    ∧ (resolveAssistant (mkLoadingMsg now ts s.selectedModel) ans).modelId
        = some s.selectedModel
    ∧ ((∀ m ∈ s.messages, m.id ≠ now + 1) →
        (handleSendMessage now rnow ts rts userMessage (.ok ans mu1) s).messages =
          s.messages ++ [mkUserMsg now ts userMessage,
            resolveAssistant (mkLoadingMsg now ts s.selectedModel) ans]) := by
  refine ⟨rfl, rfl, ?_⟩
  intro hfresh
  exact handleSend_success_messages now rnow ts rts userMessage ans mu1 s hfresh

/-- C10 (witness): two submissions differing only in `model_used` yield
identical states, and the stored assistant message carries the selected
model `"gpt"`. -/
theorem C10_model_used_never_stored_witness :
    handleSendMessage 1 9 "t1" "t2" "hi" (.ok "ans" "modelA")
        ⟨[], false, none, "gpt", [], none⟩ =
      handleSendMessage 1 9 "t1" "t2" "hi" (.ok "ans" "modelB")
        ⟨[], false, none, "gpt", [], none⟩
    ∧ (handleSendMessage 1 9 "t1" "t2" "hi" (.ok "ans" "modelA")
        ⟨[], false, none, "gpt", [], none⟩).messages =
      [mkUserMsg 1 "t1" "hi", resolveAssistant (mkLoadingMsg 1 "t1" "gpt") "ans"]
    ∧ (resolveAssistant (mkLoadingMsg 1 "t1" "gpt") "ans").modelId = some "gpt" := by
  refine ⟨?_, ?_, ?_⟩
  · exact (C10_model_used_never_stored 1 9 "t1" "t2" "hi" "ans" "modelA" "modelB" _).1
  · exact (C10_model_used_never_stored 1 9 "t1" "t2" "hi" "ans" "modelA" "modelB" _).2.2
      (by simp)
  · exact (C10_model_used_never_stored 1 9 "t1" "t2" "hi" "ans" "modelA" "modelB"
      ⟨[], false, none, "gpt", [], none⟩).2.1
